import Mathlib

/-!
Shallow embedding of the PicoRTOS Morse-message device
(`src/examples/main_project/src/main.c`).

The C program keeps a handful of global variables (`system_state`,
`current_tilt`, `message_buffer` / `message_index`,
`received_buffer` / `received_index`, `last_button_time`) that are mutated
by an interrupt handler (`button_handler`) and four periodic FreeRTOS tasks
(`imu_task`, `receiver_task`, `display_task`, `sender_task`).  We model the
globals as a structure `Globals`, each handler/task body as a function on
that structure, and a system run as a fold of task-cycle operations.
Character buffers are modelled as fixed-length `List Char` cell arrays
(2048 resp. 128 cells, all-zero initially, as for zero-initialised C
globals), and every C assignment `buf[i] = c` becomes `List.set buf i c`.
The 32-bit millisecond clock arithmetic of the debouncer is modelled with
integer arithmetic modulo 2^32.
-/

namespace PicoRTOS

/-- `#define MESSAGE_BUFFER_SIZE 2048` -/
def MESSAGE_BUFFER_SIZE : Nat := 2048

/-- `#define DEBOUNCE_MS 200` -/
def DEBOUNCE_MS : Nat := 200

/-- `#define WORD_LENGTH 4` -/
def WORD_LENGTH : Nat := 4

/-- `enum tilt_state` from main.c. -/
inductive tilt_state where
  | TILT_LEFT
  | TILT_MIDDLE
  | TILT_RIGHT
  | TILT_UNKNOWN
deriving DecidableEq

/-- `enum state` from main.c. -/
inductive state where
  | IDLE
  | RECORDING
  | SENDING
  | RECEIVING
  | DISPLAY_UPDATE
deriving DecidableEq

/-- The two interrupt sources: `BUTTON2` is the Symbol button,
`BUTTON1` the Finalize (send) button. -/
inductive Button where
  | BUTTON1
  | BUTTON2
deriving DecidableEq

/-- The C `'\0'` character. -/
def nulChar : Char := Char.ofNat 0

/-- The global variables of main.c. `message_buffer` and `received_buffer`
are the full cell arrays (2048 resp. 128 cells); `message_index`,
`received_index` and `last_button_time` are the `volatile` counters. -/
structure Globals where
  system_state : state
  current_tilt : tilt_state
  message_buffer : List Char
  message_index : Nat
  last_button_time : Nat
  received_buffer : List Char
  received_index : Nat
deriving DecidableEq

/-- The globals after `main`'s initialisation: state `IDLE`, tilt
`TILT_UNKNOWN`, both buffers zeroed with cursors at 0, debounce
timestamp 0. -/
def init_globals : Globals :=
  { system_state := state.IDLE
  , current_tilt := tilt_state.TILT_UNKNOWN
  , message_buffer := List.replicate MESSAGE_BUFFER_SIZE nulChar
  , message_index := 0
  , last_button_time := 0
  , received_buffer := List.replicate 128 nulChar
  , received_index := 0 }

/-- The character content of the outbound message: the cells strictly
before the write cursor. -/
def msgContent (s : Globals) : List Char :=
  s.message_buffer.take s.message_index

/-- The character content of the inbound message: the cells strictly
before the receive cursor. -/
def rcvContent (s : Globals) : List Char :=
  s.received_buffer.take s.received_index

/-- The outbound buffer is null-terminated at its cursor. -/
def msgNullTerminated (s : Globals) : Prop :=
  s.message_buffer[s.message_index]? = some nulChar

/-- The debounce acceptance test of `button_handler`: the C code computes
`current_time - last_button_time` in `uint32_t` arithmetic and rejects the
edge when the difference is below `DEBOUNCE_MS`. -/
def debounce_ok (last_button_time current_time : Nat) : Bool :=
  !(((current_time : Int) - (last_button_time : Int)) % (2 ^ 32) < (DEBOUNCE_MS : Int))

/-- The `gpio == BUTTON2` (Symbol) branch of `button_handler`, after the
debounce check.  If `system_state == IDLE` it becomes `RECORDING`; then, if
recording and the cursor leaves room (`message_index <
MESSAGE_BUFFER_SIZE - WORD_LENGTH`), the symbol for the current tilt is
appended (`TILT_UNKNOWN` appends nothing) and the buffer is re-terminated
with `'\0'` at the new cursor. -/
def symbol_edge (s : Globals) : Globals :=
  let s :=
    if s.system_state = state.IDLE then
      { s with system_state := state.RECORDING }
    else s
  if s.system_state = state.RECORDING ∧
      s.message_index < MESSAGE_BUFFER_SIZE - WORD_LENGTH then
    let s :=
      match s.current_tilt with
      | tilt_state.TILT_LEFT =>
          { s with message_buffer := s.message_buffer.set s.message_index '.'
                 , message_index := s.message_index + 1 }
      | tilt_state.TILT_MIDDLE =>
          { s with message_buffer := s.message_buffer.set s.message_index ' '
                 , message_index := s.message_index + 1 }
      | tilt_state.TILT_RIGHT =>
          { s with message_buffer := s.message_buffer.set s.message_index '-'
                 , message_index := s.message_index + 1 }
      | tilt_state.TILT_UNKNOWN => s
    { s with message_buffer := s.message_buffer.set s.message_index nulChar }
  else s

/-- The `gpio == BUTTON1` (Finalize) branch of `button_handler`, after the
debounce check: only while `RECORDING`, and only when `message_index > 0`
and `message_index < MESSAGE_BUFFER_SIZE - 3`, append `' '`, `' '`, `'\n'`,
re-terminate with `'\0'`, and transition to `SENDING`. -/
def finalize_edge (s : Globals) : Globals :=
  if s.system_state = state.RECORDING then
    if 0 < s.message_index ∧ s.message_index < MESSAGE_BUFFER_SIZE - 3 then
      let s := { s with message_buffer := s.message_buffer.set s.message_index ' '
                      , message_index := s.message_index + 1 }
      let s := { s with message_buffer := s.message_buffer.set s.message_index ' '
                      , message_index := s.message_index + 1 }
      let s := { s with message_buffer := s.message_buffer.set s.message_index '\n'
                      , message_index := s.message_index + 1 }
      let s := { s with message_buffer := s.message_buffer.set s.message_index nulChar }
      { s with system_state := state.SENDING }
    else s
  else s

/-- The interrupt handler `button_handler`: reject the edge if it falls
inside the debounce window of the previously accepted edge (shared across
both buttons); otherwise record the edge's time and dispatch on the GPIO. -/
def button_handler (gpio : Button) (current_time : Nat) (s : Globals) : Globals :=
  if debounce_ok s.last_button_time current_time then
    let s := { s with last_button_time := current_time }
    match gpio with
    | Button.BUTTON2 => symbol_edge s
    | Button.BUTTON1 => finalize_edge s
  else s

/-- `#define TILT_LEFT_THRESHOLD  -0.3f`, as a rational. -/
def TILT_LEFT_THRESHOLD : Rat := -3 / 10

/-- `#define TILT_RIGHT_THRESHOLD  0.3f`, as a rational. -/
def TILT_RIGHT_THRESHOLD : Rat := 3 / 10

/-- One cycle of `imu_task`'s loop: only while `RECORDING`, and only when
the sensor read succeeds (`reading = some ax`), classify the primary axis
value against the two thresholds; otherwise the tilt class is unchanged. -/
def imu_cycle (s : Globals) (reading : Option Rat) : Globals :=
  if s.system_state = state.RECORDING then
    match reading with
    | some ax =>
        if ax < TILT_LEFT_THRESHOLD then
          { s with current_tilt := tilt_state.TILT_LEFT }
        else if ax > TILT_RIGHT_THRESHOLD then
          { s with current_tilt := tilt_state.TILT_RIGHT }
        else
          { s with current_tilt := tilt_state.TILT_MIDDLE }
    | none => s
  else s

/-- One cycle of `receiver_task`'s loop, given the result of the
non-blocking character read (`none` models `PICO_ERROR_TIMEOUT`).  A
character is processed only while `IDLE` or `RECEIVING`: the state becomes
`RECEIVING`; a non-newline character is stored (and the buffer
re-terminated) when `received_index < 127`; a newline moves the state to
`DISPLAY_UPDATE`. -/
def receiver_cycle (s : Globals) (ch : Option Char) : Globals :=
  match ch with
  | none => s
  | some c =>
      if s.system_state = state.IDLE ∨ s.system_state = state.RECEIVING then
        let s := { s with system_state := state.RECEIVING }
        let s :=
          if s.received_index < 127 ∧ c ≠ '\n' then
            { s with received_buffer :=
                      (s.received_buffer.set s.received_index c).set
                        (s.received_index + 1) nulChar
                   , received_index := s.received_index + 1 }
          else s
        if c = '\n' then { s with system_state := state.DISPLAY_UPDATE } else s
      else s

/-- One cycle of `sender_task`'s loop: while `SENDING`, emit the buffer's
C-string content over the serial link (`printf("%s", message_buffer)`),
clear the outbound buffer, and return to `IDLE`.  The second component is
the emitted byte sequence, `none` when nothing was emitted. -/
def sender_cycle (s : Globals) : Globals × Option (List Char) :=
  if s.system_state = state.SENDING then
    ({ s with message_index := 0
            , message_buffer := s.message_buffer.set 0 nulChar
            , system_state := state.IDLE }
    , some (s.message_buffer.takeWhile (fun c => c ≠ nulChar)))
  else (s, none)

/-- One cycle of `display_task`'s loop: while `DISPLAY_UPDATE`, render and
play the inbound message, clear the inbound buffer, and return to `IDLE`.
Rendering and tone playback are external leaf calls with no effect on the
globals. -/
def display_cycle (s : Globals) : Globals :=
  if s.system_state = state.DISPLAY_UPDATE then
    { s with received_index := 0
           , received_buffer := s.received_buffer.set 0 nulChar
           , system_state := state.IDLE }
  else s

/-! ### Pure view of the outbound recording loop -/

/-- The fixed symbol mapping of the Symbol branch:
`TILT_LEFT → '.'`, `TILT_MIDDLE → ' '`, `TILT_RIGHT → '-'`,
`TILT_UNKNOWN` contributes nothing. -/
def tiltChar : tilt_state → Option Char
  | tilt_state.TILT_LEFT => some '.'
  | tilt_state.TILT_MIDDLE => some ' '
  | tilt_state.TILT_RIGHT => some '-'
  | tilt_state.TILT_UNKNOWN => none

/-- Content-level effect of one accepted Symbol edge while recording. -/
def appendSym (m : List Char) (t : tilt_state) : List Char :=
  if m.length < MESSAGE_BUFFER_SIZE - WORD_LENGTH then
    match tiltChar t with
    | some c => m ++ [c]
    | none => m
  else m

/-- A sequence of accepted Symbol edges, the tilt class at each edge given
by `ts`: the tilt class is what `imu_task` last wrote before the edge. -/
def acceptedSymbolRun (s : Globals) (ts : List tilt_state) : Globals :=
  ts.foldl (fun s t => symbol_edge { s with current_tilt := t }) s

/-! ### List helper lemmas -/

theorem take_set_of_le (c : α) :
    ∀ (l : List α) (i m : Nat), m ≤ i → (l.set i c).take m = l.take m
  | [], _, _, _ => by simp
  | _ :: _, _, 0, _ => by simp
  | a :: l, i + 1, m + 1, h => by
      simp only [List.set, List.take_succ_cons]
      rw [take_set_of_le c l i m (Nat.le_of_succ_le_succ h)]

theorem take_set_succ (l : List α) (i : Nat) (c : α) (h : i < l.length) :
    (l.set i c).take (i + 1) = l.take i ++ [c] := by
  rw [List.set_eq_take_cons_drop c h]
  have hlen : (l.take i).length = i := List.length_take_of_le (Nat.le_of_lt h)
  have h2 : i + 1 = (l.take i).length + 1 := by rw [hlen]
  rw [h2, List.take_append]
  simp

theorem take_append_write (buf : List Char) (i : Nat) (c : Char)
    (h : i + 1 < buf.length) :
    ((buf.set i c).set (i + 1) nulChar).take (i + 1) = buf.take i ++ [c] := by
  rw [take_set_of_le nulChar _ _ _ (Nat.le_refl _)]
  exact take_set_succ buf i c (Nat.lt_of_succ_lt h)

theorem symbol_edge_sim (s : Globals)
    (hst : s.system_state = state.RECORDING)
    (hlen : s.message_buffer.length = MESSAGE_BUFFER_SIZE)
    (hidx : s.message_index ≤ MESSAGE_BUFFER_SIZE - WORD_LENGTH)
    (hNT : msgNullTerminated s) :
    (symbol_edge s).system_state = state.RECORDING ∧
    (symbol_edge s).message_buffer.length = MESSAGE_BUFFER_SIZE ∧
    (symbol_edge s).message_index ≤ MESSAGE_BUFFER_SIZE - WORD_LENGTH ∧
    (symbol_edge s).message_index = (appendSym (msgContent s) s.current_tilt).length ∧
    msgContent (symbol_edge s) = appendSym (msgContent s) s.current_tilt ∧
    msgNullTerminated (symbol_edge s) := by
  obtain ⟨st, tilt, buf, idx, lbt, rbuf, ridx⟩ := s
  simp only at hst hlen hidx
  simp only [msgNullTerminated] at hNT
  subst hst
  simp only [MESSAGE_BUFFER_SIZE, WORD_LENGTH] at hlen hidx ⊢
  by_cases hroom : idx < 2048 - 4
  · cases tilt <;>
      simp only [symbol_edge, msgContent, appendSym, msgNullTerminated, tiltChar,
        MESSAGE_BUFFER_SIZE, WORD_LENGTH] <;>
      simp [hroom, List.length_set, hlen, List.length_take]
    · exact ⟨by omega, by omega, take_append_write _ _ _ (by simp [hlen]; omega),
        List.getElem?_set_self (by simp [hlen]; omega)⟩
    · exact ⟨by omega, by omega, take_append_write _ _ _ (by simp [hlen]; omega),
        List.getElem?_set_self (by simp [hlen]; omega)⟩
    · exact ⟨by omega, by omega, take_append_write _ _ _ (by simp [hlen]; omega),
        List.getElem?_set_self (by simp [hlen]; omega)⟩
    · exact ⟨by omega, by omega, take_set_of_le _ _ _ _ (Nat.le_refl _),
        List.getElem?_set_self (by omega)⟩
  · have hsymbol : symbol_edge ⟨state.RECORDING, tilt, buf, idx, lbt, rbuf, ridx⟩ =
        ⟨state.RECORDING, tilt, buf, idx, lbt, rbuf, ridx⟩ := by
      simp [symbol_edge, MESSAGE_BUFFER_SIZE, WORD_LENGTH, hroom]
    have hguard : ¬ (List.take idx buf).length < MESSAGE_BUFFER_SIZE - WORD_LENGTH := by
      simp only [List.length_take, MESSAGE_BUFFER_SIZE, WORD_LENGTH]
      omega
    have hA : appendSym (List.take idx buf) tilt = List.take idx buf := by
      unfold appendSym
      rw [if_neg hguard]
    rw [hsymbol]
    refine ⟨rfl, hlen, hidx, ?_, ?_, hNT⟩
    · simp only [msgContent, hA, List.length_take]
      omega
    · simp only [msgContent, hA]

/-- Folding the pure append model equals the mapped-and-truncated symbol
sequence. -/
theorem foldl_appendSym (ts : List tilt_state) (m : List Char)
    (hm : m.length ≤ MESSAGE_BUFFER_SIZE - WORD_LENGTH) :
    ts.foldl appendSym m =
      (m ++ ts.filterMap tiltChar).take (MESSAGE_BUFFER_SIZE - WORD_LENGTH) := by
  induction ts generalizing m with
  | nil => simp [List.take_of_length_le hm]
  | cons t ts ih =>
      simp only [List.foldl_cons, List.filterMap_cons]
      by_cases hroom : m.length < MESSAGE_BUFFER_SIZE - WORD_LENGTH
      · cases htc : tiltChar t with
        | none =>
            have hA : appendSym m t = m := by simp [appendSym, htc, hroom]
            rw [hA, ih m hm]
        | some c =>
            have hA : appendSym m t = m ++ [c] := by simp [appendSym, htc, hroom]
            have hm2 : (m ++ [c]).length ≤ MESSAGE_BUFFER_SIZE - WORD_LENGTH := by
              simp only [List.length_append, List.length_singleton]
              omega
            rw [hA, ih (m ++ [c]) hm2, List.append_assoc]
            rfl
      · have hm2 : m.length = MESSAGE_BUFFER_SIZE - WORD_LENGTH := by omega
        have hA : appendSym m t = m := by
          unfold appendSym
          rw [if_neg hroom]
        rw [hA, ih m hm]
        cases htc : tiltChar t with
        | none => rfl
        | some c => rw [List.take_left' hm2, List.take_left' hm2]

/-- Invariant simulation for a whole run of accepted Symbol edges. -/
theorem acceptedSymbolRun_sim (ts : List tilt_state) (s : Globals)
    (hst : s.system_state = state.RECORDING)
    (hlen : s.message_buffer.length = MESSAGE_BUFFER_SIZE)
    (hidx : s.message_index ≤ MESSAGE_BUFFER_SIZE - WORD_LENGTH)
    (hNT : msgNullTerminated s) :
    (acceptedSymbolRun s ts).system_state = state.RECORDING ∧
    (acceptedSymbolRun s ts).message_buffer.length = MESSAGE_BUFFER_SIZE ∧
    (acceptedSymbolRun s ts).message_index ≤ MESSAGE_BUFFER_SIZE - WORD_LENGTH ∧
    msgContent (acceptedSymbolRun s ts) = ts.foldl appendSym (msgContent s) ∧
    msgNullTerminated (acceptedSymbolRun s ts) := by
  induction ts generalizing s with
  | nil => exact ⟨hst, hlen, hidx, rfl, hNT⟩
  | cons t ts ih =>
      have hsim := symbol_edge_sim { s with current_tilt := t }
        (by simpa using hst) (by simpa using hlen) (by simpa using hidx)
        (by simpa [msgNullTerminated] using hNT)
      have hmc : msgContent { s with current_tilt := t } = msgContent s := by
        simp [msgContent]
      rw [hmc] at hsim
      simp only at hsim
      have hrun : acceptedSymbolRun s (t :: ts) =
          acceptedSymbolRun (symbol_edge { s with current_tilt := t }) ts := by
        simp [acceptedSymbolRun]
      rw [hrun]
      have ih2 := ih (symbol_edge { s with current_tilt := t })
        hsim.1 hsim.2.1 hsim.2.2.1 hsim.2.2.2.2.2
      refine ⟨ih2.1, ih2.2.1, ih2.2.2.1, ?_, ih2.2.2.2.2⟩
      rw [ih2.2.2.2.1, hsim.2.2.2.2.1, List.foldl_cons]

/-- C1: For every sequence of Symbol button edges accepted (past debounce)
while `SystemState == RECORDING`, the `OutboundMessage` character content
equals the starting content followed by the tilt class at each accepted
edge mapped via `LEFT → '.'`, `MIDDLE → ' '`, `RIGHT → '-'`
(`UNKNOWN` contributing nothing), truncated exactly when the capacity bound
`MESSAGE_BUFFER_SIZE - WORD_LENGTH` is reached, and the buffer is
re-terminated with a null after each accepted edge. -/
theorem C1_recording_symbol_sequence (s : Globals) (ts : List tilt_state)
    (hst : s.system_state = state.RECORDING)
    (hlen : s.message_buffer.length = MESSAGE_BUFFER_SIZE)
    (hidx : s.message_index ≤ MESSAGE_BUFFER_SIZE - WORD_LENGTH)
    (hNT : msgNullTerminated s) :
    msgContent (acceptedSymbolRun s ts) =
      (msgContent s ++ ts.filterMap tiltChar).take (MESSAGE_BUFFER_SIZE - WORD_LENGTH) ∧
    ∀ pre, pre <+: ts → msgNullTerminated (acceptedSymbolRun s pre) := by
  constructor
  · have h := acceptedSymbolRun_sim ts s hst hlen hidx hNT
    have hm : (msgContent s).length ≤ MESSAGE_BUFFER_SIZE - WORD_LENGTH := by
      simp only [msgContent, List.length_take, hlen]
      simp only [MESSAGE_BUFFER_SIZE, WORD_LENGTH] at hidx ⊢
      omega
    rw [h.2.2.2.1, foldl_appendSym ts (msgContent s) hm]
  · intro pre _
    exact (acceptedSymbolRun_sim pre s hst hlen hidx hNT).2.2.2.2

/-- The globals right after the very first accepted Symbol edge turned
`IDLE` into `RECORDING` with an empty outbound buffer. -/
def recStart : Globals := { init_globals with system_state := state.RECORDING }

/-- Concrete facts about `recStart`, discharging the recording-run
hypotheses. -/
theorem recStart_facts :
    recStart.system_state = state.RECORDING ∧
    recStart.message_buffer.length = MESSAGE_BUFFER_SIZE ∧
    recStart.message_index ≤ MESSAGE_BUFFER_SIZE - WORD_LENGTH ∧
    msgNullTerminated recStart := by
  refine ⟨rfl, List.length_replicate _ _, Nat.zero_le _, ?_⟩
  show (List.replicate MESSAGE_BUFFER_SIZE nulChar)[(0 : Nat)]? = some nulChar
  rw [List.getElem?_replicate, if_pos (by decide)]

/-- Witness for C1 at a concrete input: the run
`[TILT_LEFT, TILT_UNKNOWN, TILT_RIGHT]` from an empty recording buffer. -/
theorem C1_recording_symbol_sequence_witness :
    (recStart.system_state = state.RECORDING ∧
     recStart.message_buffer.length = MESSAGE_BUFFER_SIZE ∧
     recStart.message_index ≤ MESSAGE_BUFFER_SIZE - WORD_LENGTH ∧
     msgNullTerminated recStart) ∧
    (msgContent (acceptedSymbolRun recStart
        [tilt_state.TILT_LEFT, tilt_state.TILT_UNKNOWN, tilt_state.TILT_RIGHT]) =
      (msgContent recStart ++
        ([tilt_state.TILT_LEFT, tilt_state.TILT_UNKNOWN,
          tilt_state.TILT_RIGHT].filterMap tiltChar)).take
        (MESSAGE_BUFFER_SIZE - WORD_LENGTH) ∧
     ∀ pre, pre <+: [tilt_state.TILT_LEFT, tilt_state.TILT_UNKNOWN, tilt_state.TILT_RIGHT] →
       msgNullTerminated (acceptedSymbolRun recStart pre)) :=
  ⟨recStart_facts,
   C1_recording_symbol_sequence recStart
     [tilt_state.TILT_LEFT, tilt_state.TILT_UNKNOWN, tilt_state.TILT_RIGHT]
     recStart_facts.1 recStart_facts.2.1 recStart_facts.2.2.1 recStart_facts.2.2.2⟩

/-- The three terminator writes `' '`, `' '`, `'\n'` plus the final null,
viewed through `take`. -/
theorem take_write_term (buf : List Char) (i : Nat) (h : i + 3 < buf.length) :
    ((((buf.set i ' ').set (i + 1) ' ').set (i + 1 + 1) '\n').set (i + 1 + 1 + 1)
        nulChar).take (i + 1 + 1 + 1) =
      buf.take i ++ [' ', ' ', '\n'] := by
  have h0 : i < buf.length := by omega
  have h1 : i + 1 < (buf.set i ' ').length := by
    simp only [List.length_set]
    omega
  have h2 : i + 1 + 1 < ((buf.set i ' ').set (i + 1) ' ').length := by
    simp only [List.length_set]
    omega
  rw [take_set_of_le nulChar _ _ _ (Nat.le_refl _), take_set_succ _ _ _ h2,
    take_set_succ _ _ _ h1, take_set_succ _ _ _ h0]
  simp

/-- C2: A Finalize edge is a no-op unless `SystemState == RECORDING`, at
least one symbol has been captured (`message_index > 0`), and there is room
for the 3-character terminator (`message_index < MESSAGE_BUFFER_SIZE - 3`);
when those preconditions hold, exactly the three characters
`' '`, `' '`, `'\n'` are appended (plus a null terminator), so the buffer
ends with two spaces and a newline, and the state becomes `SENDING`. -/
theorem C2_finalize_edge (s : Globals)
    (hlen : s.message_buffer.length = MESSAGE_BUFFER_SIZE) :
    (¬(s.system_state = state.RECORDING ∧ 0 < s.message_index ∧
        s.message_index < MESSAGE_BUFFER_SIZE - 3) →
      finalize_edge s = s) ∧
    (s.system_state = state.RECORDING → 0 < s.message_index →
      s.message_index < MESSAGE_BUFFER_SIZE - 3 →
      msgContent (finalize_edge s) = msgContent s ++ [' ', ' ', '\n'] ∧
      [' ', ' ', '\n'] <:+ msgContent (finalize_edge s) ∧
      msgNullTerminated (finalize_edge s) ∧
      (finalize_edge s).system_state = state.SENDING) := by
  constructor
  · intro hno
    unfold finalize_edge
    by_cases hrec : s.system_state = state.RECORDING
    · rw [if_pos hrec, if_neg]
      intro hg
      exact hno ⟨hrec, hg⟩
    · rw [if_neg hrec]
  · intro hrec hpos hroom
    obtain ⟨st, tilt, buf, idx, lbt, rbuf, ridx⟩ := s
    simp only at hrec hpos hroom hlen
    subst hrec
    simp only [MESSAGE_BUFFER_SIZE] at hroom hlen
    have hfe : finalize_edge ⟨state.RECORDING, tilt, buf, idx, lbt, rbuf, ridx⟩ =
        ⟨state.SENDING, tilt,
          (((buf.set idx ' ').set (idx + 1) ' ').set (idx + 1 + 1) '\n').set
            (idx + 1 + 1 + 1) nulChar,
          idx + 1 + 1 + 1, lbt, rbuf, ridx⟩ := by
      simp [finalize_edge, MESSAGE_BUFFER_SIZE, hpos, hroom]
    rw [hfe]
    have hcontent :
        msgContent ⟨state.SENDING, tilt,
          (((buf.set idx ' ').set (idx + 1) ' ').set (idx + 1 + 1) '\n').set
            (idx + 1 + 1 + 1) nulChar,
          idx + 1 + 1 + 1, lbt, rbuf, ridx⟩ = buf.take idx ++ [' ', ' ', '\n'] := by
      simp only [msgContent]
      exact take_write_term buf idx (by omega)
    refine ⟨hcontent, ?_, ?_, rfl⟩
    · rw [hcontent]
      exact ⟨buf.take idx, rfl⟩
    · show _[_]? = _
      simp only
      rw [List.getElem?_set_self]
      simp only [List.length_set]
      omega

/-- A concrete recording state holding one captured symbol `'.'` (the
globals after one accepted LEFT Symbol edge from `recStart`). -/
def finStart : Globals :=
  { system_state := state.RECORDING
  , current_tilt := tilt_state.TILT_LEFT
  , message_buffer := ((List.replicate MESSAGE_BUFFER_SIZE nulChar).set 0 '.').set 1 nulChar
  , message_index := 1
  , last_button_time := 300
  , received_buffer := List.replicate 128 nulChar
  , received_index := 0 }

theorem finStart_len : finStart.message_buffer.length = MESSAGE_BUFFER_SIZE := by
  simp [finStart, List.length_set, List.length_replicate]

/-- Witness for C2 at the concrete state `finStart`. -/
theorem C2_finalize_edge_witness :
    (finStart.message_buffer.length = MESSAGE_BUFFER_SIZE ∧
     finStart.system_state = state.RECORDING ∧
     0 < finStart.message_index ∧
     finStart.message_index < MESSAGE_BUFFER_SIZE - 3) ∧
    (msgContent (finalize_edge finStart) = msgContent finStart ++ [' ', ' ', '\n'] ∧
     [' ', ' ', '\n'] <:+ msgContent (finalize_edge finStart) ∧
     msgNullTerminated (finalize_edge finStart) ∧
     (finalize_edge finStart).system_state = state.SENDING) :=
  ⟨⟨finStart_len, rfl, by decide, by decide⟩,
   (C2_finalize_edge finStart finStart_len).2 rfl (by decide) (by decide)⟩

/-! ### Whole-system operations and buffer safety -/

/-- One atomic operation of the system: a button edge (with its
millisecond timestamp), one receiver cycle (with the optional character
read), one IMU cycle (with the optional accelerometer reading), one sender
cycle, or one renderer cycle. -/
inductive Op where
  | button (gpio : Button) (current_time : Nat)
  | recv (ch : Option Char)
  | imu (reading : Option Rat)
  | send
  | render
deriving DecidableEq

/-- The effect of one operation on the globals. -/
def cycle (s : Globals) : Op → Globals
  | Op.button gpio t => button_handler gpio t s
  | Op.recv ch => receiver_cycle s ch
  | Op.imu r => imu_cycle s r
  | Op.send => (sender_cycle s).1
  | Op.render => display_cycle s

/-- A run of the system from boot: fold the operations over the
initialised globals. -/
def runOps (ops : List Op) : Globals :=
  ops.foldl cycle init_globals

/-- The buffer stores `buf[i] = c` an operation performs in a given state,
listed as `(index, capacity-of-that-array)` pairs, one pair per C
assignment, in program order.  This transliterates the write sites of
`button_handler`, `receiver_task`, `sender_task` and `display_task`
(`imu_task` writes no buffer). -/
def cycleWrites (s : Globals) : Op → List (Nat × Nat)
  | Op.button gpio t =>
      if debounce_ok s.last_button_time t then
        match gpio with
        | Button.BUTTON2 =>
            let st := if s.system_state = state.IDLE then state.RECORDING
                      else s.system_state
            if st = state.RECORDING ∧
                s.message_index < MESSAGE_BUFFER_SIZE - WORD_LENGTH then
              match s.current_tilt with
              | tilt_state.TILT_UNKNOWN => [(s.message_index, MESSAGE_BUFFER_SIZE)]
              | _ => [(s.message_index, MESSAGE_BUFFER_SIZE),
                      (s.message_index + 1, MESSAGE_BUFFER_SIZE)]
            else []
        | Button.BUTTON1 =>
            if s.system_state = state.RECORDING ∧
                0 < s.message_index ∧ s.message_index < MESSAGE_BUFFER_SIZE - 3 then
              [(s.message_index, MESSAGE_BUFFER_SIZE),
               (s.message_index + 1, MESSAGE_BUFFER_SIZE),
               (s.message_index + 2, MESSAGE_BUFFER_SIZE),
               (s.message_index + 3, MESSAGE_BUFFER_SIZE)]
            else []
      else []
  | Op.recv none => []
  | Op.recv (some c) =>
      if (s.system_state = state.IDLE ∨ s.system_state = state.RECEIVING) ∧
          s.received_index < 127 ∧ c ≠ '\n' then
        [(s.received_index, 128), (s.received_index + 1, 128)]
      else []
  | Op.imu _ => []
  | Op.send => if s.system_state = state.SENDING then [(0, MESSAGE_BUFFER_SIZE)] else []
  | Op.render => if s.system_state = state.DISPLAY_UPDATE then [(0, 128)] else []

/-- Every listed write index is strictly below its array's capacity. -/
def writesOK (l : List (Nat × Nat)) : Bool :=
  l.all fun w => decide (w.1 < w.2)

/-- Every operation, from every state, only stores strictly inside the
arrays: the guards in the code bound each write index below the array
capacity. -/
theorem cycleWrites_inbounds (s : Globals) (op : Op) :
    writesOK (cycleWrites s op) = true := by
  obtain ⟨st, tilt, buf, idx, lbt, rbuf, ridx⟩ := s
  rw [writesOK, List.all_eq_true]
  intro w hw
  simp only [decide_eq_true_eq]
  cases op with
  | button gpio t =>
      simp only [cycleWrites] at hw
      by_cases hdb : debounce_ok lbt t = true
      · rw [if_pos hdb] at hw
        cases gpio with
        | BUTTON2 =>
            simp only at hw
            by_cases hg : (if st = state.IDLE then state.RECORDING else st) =
                state.RECORDING ∧ idx < MESSAGE_BUFFER_SIZE - WORD_LENGTH
            · rw [if_pos hg] at hw
              have hidx := hg.2
              simp only [MESSAGE_BUFFER_SIZE, WORD_LENGTH] at hidx
              cases tilt <;>
                simp only [List.mem_cons, List.mem_singleton,
                  List.not_mem_nil, or_false] at hw <;>
                obtain rfl | rfl := hw <;>
                simp [MESSAGE_BUFFER_SIZE] <;>
                omega
            · rw [if_neg hg] at hw
              exact absurd hw (List.not_mem_nil w)
        | BUTTON1 =>
            simp only at hw
            by_cases hg : st = state.RECORDING ∧
                0 < idx ∧ idx < MESSAGE_BUFFER_SIZE - 3
            · rw [if_pos hg] at hw
              have hidx := hg.2.2
              simp only [MESSAGE_BUFFER_SIZE] at hidx
              simp only [List.mem_cons, List.not_mem_nil, or_false] at hw
              obtain rfl | rfl | rfl | rfl := hw <;>
                simp [MESSAGE_BUFFER_SIZE] <;>
                omega
            · rw [if_neg hg] at hw
              exact absurd hw (List.not_mem_nil w)
      · simp only [Bool.not_eq_true] at hdb
        rw [hdb] at hw
        simp at hw
  | recv ch =>
      cases ch with
      | none => simp [cycleWrites] at hw
      | some c =>
          simp only [cycleWrites] at hw
          by_cases hg : (st = state.IDLE ∨ st = state.RECEIVING) ∧
              ridx < 127 ∧ c ≠ '\n'
          · rw [if_pos hg] at hw
            have hidx := hg.2.1
            simp only [List.mem_cons, List.mem_singleton,
              List.not_mem_nil, or_false] at hw
            obtain rfl | rfl := hw <;> simp <;> omega
          · rw [if_neg hg] at hw
            exact absurd hw (List.not_mem_nil w)
  | imu r => simp [cycleWrites] at hw
  | send =>
      simp only [cycleWrites] at hw
      by_cases hg : st = state.SENDING
      · rw [if_pos hg] at hw
        simp only [List.mem_singleton] at hw
        subst hw
        simp [MESSAGE_BUFFER_SIZE]
      · rw [if_neg hg] at hw
        exact absurd hw (List.not_mem_nil w)
  | render =>
      simp only [cycleWrites] at hw
      by_cases hg : st = state.DISPLAY_UPDATE
      · rw [if_pos hg] at hw
        simp only [List.mem_singleton] at hw
        subst hw
        simp
      · rw [if_neg hg] at hw
        exact absurd hw (List.not_mem_nil w)

/-- Buffer well-formedness: the arrays keep their capacities and each
cursor leaves room for the null terminator. -/
def BufInv (s : Globals) : Prop :=
  s.message_buffer.length = MESSAGE_BUFFER_SIZE ∧
  s.received_buffer.length = 128 ∧
  s.message_index + 1 ≤ MESSAGE_BUFFER_SIZE ∧
  s.received_index + 1 ≤ 128

theorem symbol_edge_bufInv (s : Globals) (h : BufInv s) : BufInv (symbol_edge s) := by
  obtain ⟨st, tilt, buf, idx, lbt, rbuf, ridx⟩ := s
  obtain ⟨h1, h2, h3, h4⟩ := h
  simp only at h1 h2 h3 h4
  simp only [MESSAGE_BUFFER_SIZE, WORD_LENGTH] at h1 h3 ⊢
  by_cases hst : st = state.IDLE <;>
    by_cases hroom : idx < 2048 - 4 <;>
      cases tilt <;>
        by_cases hrec : st = state.RECORDING <;>
          simp [symbol_edge, BufInv, MESSAGE_BUFFER_SIZE, WORD_LENGTH, hst, hroom, hrec,
            List.length_set, h1, h2] <;>
          omega

theorem finalize_edge_bufInv (s : Globals) (h : BufInv s) : BufInv (finalize_edge s) := by
  obtain ⟨st, tilt, buf, idx, lbt, rbuf, ridx⟩ := s
  obtain ⟨h1, h2, h3, h4⟩ := h
  simp only at h1 h2 h3 h4
  simp only [MESSAGE_BUFFER_SIZE] at h1 h3 ⊢
  by_cases hrec : st = state.RECORDING <;>
    by_cases hg : 0 < idx ∧ idx < 2048 - 3 <;>
      simp [finalize_edge, BufInv, MESSAGE_BUFFER_SIZE, hrec, hg,
        List.length_set, h1, h2] <;>
      omega

theorem cycle_bufInv (s : Globals) (op : Op) (h : BufInv s) : BufInv (cycle s op) := by
  cases op with
  | button gpio t =>
      by_cases hdb : debounce_ok s.last_button_time t = true
      · cases gpio with
        | BUTTON2 =>
            have := symbol_edge_bufInv { s with last_button_time := t }
              (by exact ⟨h.1, h.2.1, h.2.2.1, h.2.2.2⟩)
            simpa [cycle, button_handler, hdb] using this
        | BUTTON1 =>
            have := finalize_edge_bufInv { s with last_button_time := t }
              (by exact ⟨h.1, h.2.1, h.2.2.1, h.2.2.2⟩)
            simpa [cycle, button_handler, hdb] using this
      · simp only [Bool.not_eq_true] at hdb
        simpa [cycle, button_handler, hdb] using h
  | recv ch =>
      obtain ⟨st, tilt, buf, idx, lbt, rbuf, ridx⟩ := s
      obtain ⟨h1, h2, h3, h4⟩ := h
      simp only at h1 h2 h3 h4
      cases ch with
      | none => exact ⟨h1, h2, h3, h4⟩
      | some c =>
          simp only [MESSAGE_BUFFER_SIZE] at h1 h3 ⊢
          by_cases hst : st = state.IDLE ∨ st = state.RECEIVING
          · by_cases hnl : c = '\n'
            · simp [cycle, receiver_cycle, BufInv, MESSAGE_BUFFER_SIZE,
                hst, hnl, List.length_set, h1, h2]
              all_goals omega
            · by_cases hr : ridx < 127 <;>
                simp [cycle, receiver_cycle, BufInv, MESSAGE_BUFFER_SIZE,
                  hst, hr, hnl, List.length_set, h1, h2] <;>
                all_goals omega
          · simp [cycle, receiver_cycle, BufInv, MESSAGE_BUFFER_SIZE,
              hst, h1, h2]
            all_goals omega
  | imu r =>
      obtain ⟨st, tilt, buf, idx, lbt, rbuf, ridx⟩ := s
      obtain ⟨h1, h2, h3, h4⟩ := h
      simp only at h1 h2 h3 h4
      simp only [MESSAGE_BUFFER_SIZE] at h1 h3 ⊢
      cases r with
      | none =>
          simp [cycle, imu_cycle, BufInv, MESSAGE_BUFFER_SIZE, h1, h2]
          all_goals omega
      | some ax =>
          by_cases hst : st = state.RECORDING <;>
            by_cases hl : ax < TILT_LEFT_THRESHOLD <;>
              by_cases hr : ax > TILT_RIGHT_THRESHOLD <;>
                simp [cycle, imu_cycle, BufInv, MESSAGE_BUFFER_SIZE,
                  hst, hl, hr, h1, h2] <;>
                all_goals omega
  | send =>
      obtain ⟨st, tilt, buf, idx, lbt, rbuf, ridx⟩ := s
      obtain ⟨h1, h2, h3, h4⟩ := h
      simp only at h1 h2 h3 h4
      simp only [MESSAGE_BUFFER_SIZE] at h1 h3 ⊢
      by_cases hst : st = state.SENDING <;>
        simp [cycle, sender_cycle, BufInv, MESSAGE_BUFFER_SIZE, hst,
          List.length_set, h1, h2] <;>
        all_goals omega
  | render =>
      obtain ⟨st, tilt, buf, idx, lbt, rbuf, ridx⟩ := s
      obtain ⟨h1, h2, h3, h4⟩ := h
      simp only at h1 h2 h3 h4
      simp only [MESSAGE_BUFFER_SIZE] at h1 h3 ⊢
      by_cases hst : st = state.DISPLAY_UPDATE <;>
        simp [cycle, display_cycle, BufInv, MESSAGE_BUFFER_SIZE, hst,
          List.length_set, h1, h2] <;>
        all_goals omega

theorem foldl_cycle_bufInv (ops : List Op) (s : Globals) (h : BufInv s) :
    BufInv (ops.foldl cycle s) := by
  induction ops generalizing s with
  | nil => exact h
  | cons op ops ih => exact ih _ (cycle_bufInv s op h)

theorem runOps_bufInv (ops : List Op) : BufInv (runOps ops) := by
  refine foldl_cycle_bufInv ops init_globals
    ⟨List.length_replicate _ _, List.length_replicate _ _, ?_, ?_⟩
  · show (0 : Nat) + 1 ≤ MESSAGE_BUFFER_SIZE
    decide
  · show (0 : Nat) + 1 ≤ 128
    decide

/-- C3: For every reachable state of the system and every operation, the
outbound write cursor plus the reserved null-terminator slot stays at or
below the buffer capacity (and likewise for the inbound buffer), the
arrays keep their capacities, and every index stored into either buffer by
the next operation is strictly within that array's bounds. -/
theorem C3_buffer_safety (ops : List Op) (op : Op) :
    writesOK (cycleWrites (runOps ops) op) = true ∧
    (runOps ops).message_index + 1 ≤ MESSAGE_BUFFER_SIZE ∧
    (runOps ops).received_index + 1 ≤ 128 ∧
    (runOps ops).message_buffer.length = MESSAGE_BUFFER_SIZE ∧
    (runOps ops).received_buffer.length = 128 := by
  have h := runOps_bufInv ops
  exact ⟨cycleWrites_inbounds (runOps ops) op, h.2.2.1, h.2.2.2, h.1, h.2.1⟩

/-! ### Debounce (C4) -/

theorem symbol_edge_last_button_time (s : Globals) :
    (symbol_edge s).last_button_time = s.last_button_time := by
  obtain ⟨st, tilt, buf, idx, lbt, rbuf, ridx⟩ := s
  by_cases hst : st = state.IDLE <;>
    by_cases hrec : st = state.RECORDING <;>
      by_cases hroom : idx < MESSAGE_BUFFER_SIZE - WORD_LENGTH <;>
        cases tilt <;>
          simp [symbol_edge, hst, hrec, hroom]

theorem finalize_edge_last_button_time (s : Globals) :
    (finalize_edge s).last_button_time = s.last_button_time := by
  obtain ⟨st, tilt, buf, idx, lbt, rbuf, ridx⟩ := s
  by_cases hrec : st = state.RECORDING <;>
    by_cases hg : 0 < idx ∧ idx < MESSAGE_BUFFER_SIZE - 3 <;>
      simp [finalize_edge, hrec, hg]

/-- An accepted edge records its own time as the new debounce timestamp. -/
theorem button_handler_accepted_time (g : Button) (t : Nat) (s : Globals)
    (hacc : debounce_ok s.last_button_time t = true) :
    (button_handler g t s).last_button_time = t := by
  cases g with
  | BUTTON1 =>
      simp only [button_handler, hacc, if_true]
      rw [finalize_edge_last_button_time]
  | BUTTON2 =>
      simp only [button_handler, hacc, if_true]
      rw [symbol_edge_last_button_time]

/-- A rejected edge leaves the whole state unchanged. -/
theorem button_handler_rejected (g : Button) (t : Nat) (s : Globals)
    (hrej : debounce_ok s.last_button_time t = false) :
    button_handler g t s = s := by
  simp [button_handler, hrej]

/-- C4 counterexample: from boot, a Symbol edge at t = 300 ms is accepted;
a second edge at t = 500 ms — elapsed exactly `DEBOUNCE_MS`, which does
not strictly exceed the window — passes the debounce test nonetheless. -/
theorem C4_debounce_counterexample :
    (button_handler Button.BUTTON2 300 init_globals).last_button_time = 300 ∧
    debounce_ok (button_handler Button.BUTTON2 300 init_globals).last_button_time 500
      = true ∧
    (button_handler Button.BUTTON2 500
      (button_handler Button.BUTTON2 300 init_globals)).last_button_time = 500 ∧
    ¬(500 - 300 > DEBOUNCE_MS) := by
  decide

/-- C4 (amended): an edge is accepted only if the elapsed time (32-bit
wrap-around difference) since the last accepted edge is at least — not
strictly more than — the debounce window; and of two edges separated by
less than the window the second is rejected whenever the first was
accepted, so at most one of such a pair is accepted. -/
theorem C4_debounce_window (s : Globals) (g1 g2 : Button) (t1 t2 : Nat)
    (hacc : debounce_ok s.last_button_time t1 = true) :
    ((t1 : Int) - (s.last_button_time : Int)) % (2 ^ 32) ≥ (DEBOUNCE_MS : Int) ∧
    (((t2 : Int) - (t1 : Int)) % (2 ^ 32) < (DEBOUNCE_MS : Int) →
      button_handler g2 t2 (button_handler g1 t1 s) = button_handler g1 t1 s) := by
  constructor
  · simp only [debounce_ok, Bool.not_eq_true', decide_eq_false_iff_not, not_lt] at hacc
    exact hacc
  · intro hclose
    apply button_handler_rejected
    rw [button_handler_accepted_time g1 t1 s hacc]
    simp only [debounce_ok]
    norm_num
    exact hclose

/-- Witness for C4 (amended) at concrete times 300 and 400 from boot. -/
theorem C4_debounce_window_witness :
    debounce_ok init_globals.last_button_time 300 = true ∧
    ((300 : Int) - (init_globals.last_button_time : Int)) % (2 ^ 32)
      ≥ (DEBOUNCE_MS : Int) ∧
    ((400 : Int) - (300 : Int)) % (2 ^ 32) < (DEBOUNCE_MS : Int) ∧
    button_handler Button.BUTTON1 400 (button_handler Button.BUTTON2 300 init_globals)
      = button_handler Button.BUTTON2 300 init_globals :=
  ⟨by decide,
   (C4_debounce_window init_globals Button.BUTTON2 Button.BUTTON1 300 400 (by decide)).1,
   by decide,
   (C4_debounce_window init_globals Button.BUTTON2 Button.BUTTON1 300 400
     (by decide)).2 (by decide)⟩

/-! ### Receiver (C5, C6) -/

/-- C5: fed the byte stream `'.'`, `'-'`, `'\n'` one character per cycle
from `IDLE` with an empty inbound buffer, the receiver goes
`IDLE → RECEIVING` on the first character, stays `RECEIVING` on the second,
moves to `DISPLAY_UPDATE` on the newline, and the inbound content is
exactly `".-"` (terminator not stored). -/
theorem C5_receiver_scenario :
    init_globals.system_state = state.IDLE ∧
    rcvContent init_globals = [] ∧
    (receiver_cycle init_globals (some '.')).system_state = state.RECEIVING ∧
    (receiver_cycle (receiver_cycle init_globals (some '.'))
      (some '-')).system_state = state.RECEIVING ∧
    (receiver_cycle (receiver_cycle (receiver_cycle init_globals (some '.'))
      (some '-')) (some '\n')).system_state = state.DISPLAY_UPDATE ∧
    rcvContent (receiver_cycle (receiver_cycle (receiver_cycle init_globals
      (some '.')) (some '-')) (some '\n')) = ['.', '-'] := by
  decide

/-- C6: while `RECORDING`, `SENDING` or `DISPLAY_UPDATE`, an available
character is silently dropped: the receiver cycle leaves the globals
(inbound content, cursor and system state included) unchanged. -/
theorem C6_receiver_drops_when_busy (s : Globals) (c : Char)
    (h : s.system_state = state.RECORDING ∨ s.system_state = state.SENDING ∨
         s.system_state = state.DISPLAY_UPDATE) :
    receiver_cycle s (some c) = s := by
  have hni : ¬(s.system_state = state.IDLE ∨ s.system_state = state.RECEIVING) := by
    rcases h with h | h | h <;> simp [h]
  simp [receiver_cycle, hni]

/-- Witness for C6: a character arriving while recording is dropped. -/
theorem C6_receiver_drops_when_busy_witness :
    (recStart.system_state = state.RECORDING ∨
     recStart.system_state = state.SENDING ∨
     recStart.system_state = state.DISPLAY_UPDATE) ∧
    receiver_cycle recStart (some '.') = recStart :=
  ⟨Or.inl rfl, C6_receiver_drops_when_busy recStart '.' (Or.inl rfl)⟩

/-! ### Concrete recording scenario (C7) -/

/-- Three accepted Symbol edges from `recStart`, the tilt class holding
LEFT, MIDDLE, RIGHT respectively at the instant of each edge. -/
def c7_run : Globals :=
  button_handler Button.BUTTON2 900
    { button_handler Button.BUTTON2 600
        { button_handler Button.BUTTON2 300
            { recStart with current_tilt := tilt_state.TILT_LEFT }
          with current_tilt := tilt_state.TILT_MIDDLE }
      with current_tilt := tilt_state.TILT_RIGHT }

/-- The Finalize edge following the three-symbol run. -/
def c7_final : Globals := button_handler Button.BUTTON1 1200 c7_run

/-- C7 counterexample: the tilt sequence LEFT, MIDDLE, RIGHT while
recording yields the three characters `'.'`, `' '`, `'-'` — the string
`". -"` — not the four-character string `".  -"` (two spaces) stated by
the claim. -/
theorem C7_scenario_counterexample :
    msgContent c7_run = ['.', ' ', '-'] ∧
    msgContent c7_run ≠ ".  -".toList := by
  decide

/-- C7 (amended): starting in `RECORDING` with an empty outbound buffer,
three accepted Symbol edges with tilt sequence LEFT, MIDDLE, RIGHT yield
`". -"` (characters `'.'`, `' '`, `'-'`) prior to finalization; after a
valid Finalize edge the buffer is `". -  \n"` and the state is
`SENDING`. -/
theorem C7_scenario :
    recStart.system_state = state.RECORDING ∧
    msgContent recStart = [] ∧
    msgContent c7_run = ". -".toList ∧
    msgContent c7_final = ". -  \n".toList ∧
    c7_final.system_state = state.SENDING := by
  decide

/-! ### Boot-time task creation check (C8) -/

/-- The task-creation result check at the end of `main`: each flag is
`true` iff the corresponding `xTaskCreate` returned `pdPASS` (`result`:
IMU task, `result_r`: receiver, `result_d`: display, `result_s`: sender),
and the function returns `true` iff `main` reaches
`vTaskStartScheduler()`.  The C code tests
`result != pdPASS || result_r != pdPASS || result_d != pdPASS` — it never
tests `result_s`. -/
def boot_starts_scheduler (result result_r result_d result_s : Bool) : Bool :=
  if !result || !result_r || !result_d then false else true

/-- C8: the code starts the scheduler even when creating the sender task
failed — `main` checks the IMU, receiver and display creation results but
omits `result_s`, contradicting the spec's "task-start failure at boot is
fatal".  (The flag is reported here at the failing input: sender creation
fails, everything else succeeds, and the scheduler still runs.) -/
theorem C8_sender_creation_unchecked :
    boot_starts_scheduler true true true false = true ∧
    boot_starts_scheduler false true true true = false ∧
    boot_starts_scheduler true false true true = false ∧
    boot_starts_scheduler true true false true = false := by
  decide

/-! ### First press while IDLE (C10) -/

/-- C10: an accepted Symbol edge while `IDLE` both switches the state to
`RECORDING` and, in the same handler invocation, already appends the
symbol for the current tilt class (when it is not `TILT_UNKNOWN` and there
is room): the two `if` blocks are not mutually exclusive, so the very
first press records a symbol. -/
theorem C10_first_press_appends (s : Globals) (t : Nat) (c : Char)
    (hst : s.system_state = state.IDLE)
    (hlen : s.message_buffer.length = MESSAGE_BUFFER_SIZE)
    (hidx : s.message_index < MESSAGE_BUFFER_SIZE - WORD_LENGTH)
    (htilt : tiltChar s.current_tilt = some c)
    (hacc : debounce_ok s.last_button_time t = true) :
    (button_handler Button.BUTTON2 t s).system_state = state.RECORDING ∧
    msgContent (button_handler Button.BUTTON2 t s) = msgContent s ++ [c] := by
  obtain ⟨st, tilt, buf, idx, lbt, rbuf, ridx⟩ := s
  simp only at hst hlen hidx htilt hacc
  subst hst
  simp only [MESSAGE_BUFFER_SIZE, WORD_LENGTH] at hlen hidx
  simp only [button_handler, hacc, if_true]
  cases tilt <;> simp only [tiltChar] at htilt <;>
    (try cases htilt) <;>
    simp [symbol_edge, msgContent, MESSAGE_BUFFER_SIZE, WORD_LENGTH, hidx] <;>
    exact take_append_write buf idx _ (by omega)

/-- Witness for C10: first press from boot with the tilt class LEFT. -/
theorem C10_first_press_appends_witness :
    ({ init_globals with current_tilt := tilt_state.TILT_LEFT }.system_state
        = state.IDLE ∧
     { init_globals with current_tilt := tilt_state.TILT_LEFT }.message_buffer.length
        = MESSAGE_BUFFER_SIZE ∧
     { init_globals with current_tilt := tilt_state.TILT_LEFT }.message_index
        < MESSAGE_BUFFER_SIZE - WORD_LENGTH ∧
     tiltChar { init_globals with current_tilt := tilt_state.TILT_LEFT }.current_tilt
        = some '.' ∧
     debounce_ok
       { init_globals with current_tilt := tilt_state.TILT_LEFT }.last_button_time 300
        = true) ∧
    ((button_handler Button.BUTTON2 300
        { init_globals with current_tilt := tilt_state.TILT_LEFT }).system_state
        = state.RECORDING ∧
     msgContent (button_handler Button.BUTTON2 300
        { init_globals with current_tilt := tilt_state.TILT_LEFT }) =
       msgContent { init_globals with current_tilt := tilt_state.TILT_LEFT } ++ ['.']) :=
  ⟨⟨rfl, List.length_replicate _ _, by decide, rfl, by decide⟩,
   C10_first_press_appends { init_globals with current_tilt := tilt_state.TILT_LEFT }
     300 '.' rfl (List.length_replicate _ _) (by decide) rfl (by decide)⟩

/-! ### Serial round trip (C9) -/

/-- Feed a byte sequence into the receiver, one character per cycle. -/
def feed (s : Globals) (cs : List Char) : Globals :=
  cs.foldl (fun s c => receiver_cycle s (some c)) s

/-- Feeding non-terminator characters from `IDLE`/`RECEIVING` appends them
to the inbound content until the 127-character capacity is reached. -/
theorem feed_nonterminator (cs : List Char) (s : Globals)
    (hlen : s.received_buffer.length = 128)
    (hst : s.system_state = state.IDLE ∨ s.system_state = state.RECEIVING)
    (hidx : s.received_index ≤ 127)
    (hnl : ∀ c ∈ cs, c ≠ '\n') :
    rcvContent (feed s cs) = rcvContent s ++ cs.take (127 - s.received_index) ∧
    (feed s cs).received_buffer.length = 128 ∧
    ((feed s cs).system_state = state.IDLE ∨
      (feed s cs).system_state = state.RECEIVING) ∧
    (feed s cs).received_index ≤ 127 := by
  induction cs generalizing s with
  | nil =>
      refine ⟨?_, hlen, hst, hidx⟩
      simp [feed]
  | cons c cs ih =>
      have hc : c ≠ '\n' := hnl c (List.mem_cons_self c cs)
      have hfeed : feed s (c :: cs) = feed (receiver_cycle s (some c)) cs := rfl
      obtain ⟨st, tilt, buf, idx, lbt, rbuf, ridx⟩ := s
      simp only at hlen hst hidx
      by_cases hr : ridx < 127
      · have hstep : receiver_cycle ⟨st, tilt, buf, idx, lbt, rbuf, ridx⟩ (some c) =
            ⟨state.RECEIVING, tilt, buf, idx, lbt,
              (rbuf.set ridx c).set (ridx + 1) nulChar, ridx + 1⟩ := by
          rcases hst with h | h <;> subst h <;>
            simp [receiver_cycle, hr, hc]
        rw [hfeed, hstep]
        have ih2 := ih ⟨state.RECEIVING, tilt, buf, idx, lbt,
            (rbuf.set ridx c).set (ridx + 1) nulChar, ridx + 1⟩
          (by simp [List.length_set, hlen]) (Or.inr rfl)
          (by show ridx + 1 ≤ 127
              omega)
          (fun x hx => hnl x (List.mem_cons_of_mem _ hx))
        refine ⟨?_, ih2.2.1, ih2.2.2.1, ih2.2.2.2⟩
        rw [ih2.1]
        have hcont : rcvContent ⟨state.RECEIVING, tilt, buf, idx, lbt,
            (rbuf.set ridx c).set (ridx + 1) nulChar, ridx + 1⟩ =
            rcvContent ⟨st, tilt, buf, idx, lbt, rbuf, ridx⟩ ++ [c] := by
          simp only [rcvContent]
          exact take_append_write rbuf ridx c (by omega)
        rw [hcont, List.append_assoc]
        have hsub : 127 - ridx = (127 - (ridx + 1)) + 1 := by omega
        rw [hsub]
        rfl
      · have hstep : receiver_cycle ⟨st, tilt, buf, idx, lbt, rbuf, ridx⟩ (some c) =
            ⟨state.RECEIVING, tilt, buf, idx, lbt, rbuf, ridx⟩ := by
          rcases hst with h | h <;> subst h <;>
            simp [receiver_cycle, hr, hc]
        rw [hfeed, hstep]
        have ih2 := ih ⟨state.RECEIVING, tilt, buf, idx, lbt, rbuf, ridx⟩
          hlen (Or.inr rfl) hidx
          (fun x hx => hnl x (List.mem_cons_of_mem _ hx))
        refine ⟨?_, ih2.2.1, ih2.2.2.1, ih2.2.2.2⟩
        rw [ih2.1]
        have hr127 : ridx = 127 := by omega
        simp [rcvContent, hr127]

/-- C9 (amended): for every line the Sender emits (the finalized
outbound content), feeding its bytes one per cycle into the Receiver from
`IDLE` with an empty inbound buffer, up to and excluding the newline
terminator, reproduces an identical inbound content — provided the line
minus the terminator fits the 127-character inbound capacity (longer lines
are truncated at 127 characters). -/
theorem C9_roundtrip (s : Globals) (out m : List Char)
    (hsend : (sender_cycle s).2 = some out)
    (hout : out = m ++ ['\n'])
    (hm : ∀ c ∈ m, c ≠ '\n')
    (hlen : m.length ≤ 127) :
    rcvContent (feed init_globals m) = m := by
  have h := feed_nonterminator m init_globals (List.length_replicate _ _)
    (Or.inl rfl) (by decide) hm
  rw [h.1]
  have h0 : rcvContent init_globals = [] := rfl
  have h127 : m.length ≤ 127 - init_globals.received_index := by
    show m.length ≤ 127 - 0
    omega
  rw [h0, List.nil_append]
  exact List.take_of_length_le h127

/-- The finalized one-symbol message, ready to send. -/
def c9_send : Globals := finalize_edge finStart

/-- Witness for C9 (amended): the finalized line `".  \n"` round-trips. -/
theorem C9_roundtrip_witness :
    ((sender_cycle c9_send).2 = some (['.', ' ', ' '] ++ ['\n']) ∧
     (∀ c ∈ (['.', ' ', ' '] : List Char), c ≠ '\n') ∧
     (['.', ' ', ' '] : List Char).length ≤ 127) ∧
    rcvContent (feed init_globals ['.', ' ', ' ']) = ['.', ' ', ' '] :=
  ⟨⟨by decide, by decide, by decide⟩,
   C9_roundtrip c9_send (['.', ' ', ' '] ++ ['\n']) ['.', ' ', ' ']
     (by decide) rfl (by decide) (by decide)⟩

/-- A finalized 129-character outbound line: 126 dots recorded, then the
Finalize terminator. -/
def c9_long : Globals :=
  finalize_edge (acceptedSymbolRun recStart (List.replicate 126 tilt_state.TILT_LEFT))

set_option maxRecDepth 100000 in
/-- C9 counterexample: for the finalized outbound line of 126 dots plus
`"  \n"`, the line minus its newline terminator has 128 characters, one
more than the inbound buffer accepts, so feeding it byte-by-byte from
`IDLE` reproduces only the first 127 characters — not an identical
content. -/
theorem C9_roundtrip_counterexample :
    msgContent c9_long = List.replicate 126 '.' ++ [' ', ' ', '\n'] ∧
    (sender_cycle c9_long).2 = some (List.replicate 126 '.' ++ [' ', ' ', '\n']) ∧
    rcvContent (feed init_globals (List.replicate 126 '.' ++ [' ', ' '])) =
      List.replicate 126 '.' ++ [' '] ∧
    List.replicate 126 '.' ++ [' '] ≠ List.replicate 126 '.' ++ [' ', ' '] := by
  decide

end PicoRTOS
